import Mathlib

set_option autoImplicit false

/-!
Verification of the BoxLite host-side container lifecycle engine.

Shallow embedding of the Rust sources:
  * `src/boxlite/src/runtime/types.rs` (box / container identifiers)
  * `src/boxlite/src/litebox/box_impl.rs` (BoxImpl operations, stop, exec metrics)
  * `src/boxlite/src/litebox/init/mod.rs` (BoxBuilder.build, CleanupGuard discipline)
  * `src/boxlite/src/litebox/init/tasks/guest_connect.rs` (readiness race)
  * `src/boxlite/src/vmm/controller/shim.rs` (ShimHandler.stop)
  * `src/boxlite-cli/src/cli.rs` (publish / volume flag parsing)
  * `src/boxlite-cli/src/commands/run.rs` (CLI exit-code mapping)
  * `src/boxlite/src/metrics/runtime_metrics.rs` (runtime counters)

Machine integers are modelled as `Nat`/`Int` with explicit bounds where the
Rust code relies on them; fallible code returns `Except`; effectful code is
modelled as explicit state passing; IO results (process exits, guest events)
enter the model as function parameters.
-/

namespace Boxlite

-- ============================================================================
-- Error type (boxlite-shared errors, §7 of the spec; variants used by the core)
-- ============================================================================

/-- The tagged error type surfaced by the core (`BoxliteError` in
`boxlite-shared`); only the variants exercised by the modelled code appear. -/
inductive BoxliteError where
  | NotFound (msg : String)
  | InvalidState (msg : String)
  | Config (msg : String)
  | Engine (msg : String)
  | Storage (msg : String)
  | Database (msg : String)
  | Stopped (msg : String)
  | Internal (msg : String)
deriving DecidableEq, Repr

-- ============================================================================
-- Box status (litebox/state; the file is referenced from litebox/mod.rs)
-- ============================================================================

/-- Box lifecycle status, from `BoxState`/`BoxStatus`
(`status ∈ \x7bConfigured, Starting, Running, Stopping, Stopped, Unknown\x7d`). -/
inductive BoxStatus where
  | Configured
  | Starting
  | Running
  | Stopping
  | Stopped
  | Unknown
deriving DecidableEq, Repr

/-- Modelled from the spec: `can_start = status ∈ \x7bConfigured, Stopped\x7d`
(§3 of the spec; `litebox/state.rs` is not among the provided sources,
only its callers are). -/
def BoxStatus.can_start : BoxStatus → Bool
  | .Configured => true
  | .Stopped => true
  | _ => false

-- ============================================================================
-- C5: identifier shapes (src/boxlite/src/runtime/types.rs)
-- ============================================================================

/-- Crockford base32 alphabet used by the `ulid` crate for `Ulid::to_string`. -/
def CROCKFORD : List Char := "0123456789ABCDEFGHJKMNPQRSTVWXYZ".toList

/-- Modelled from the dependency: `ulid::Ulid::to_string` renders the 128-bit
ULID value as 26 Crockford base32 characters, most significant 5-bit group
first (the `ulid` crate is not vendored under `src/`; `generate_box_id` in
`runtime/types.rs` is `ulid::Ulid::new().to_string()`). The fresh random
128-bit value is the parameter `v`. -/
def ulidToString (v : Nat) : List Char :=
  (List.range 26).map (fun i => CROCKFORD.getD ((v >>> (5 * (25 - i))) % 32) '0')

/-- `generate_box_id` from `runtime/types.rs`: a new ULID rendered to a string;
the randomness is the parameter. -/
def generate_box_id (v : Nat) : List Char :=
  ulidToString v

/-- Character class of the regex `[0-9A-HJ-NP-Z]` (the spec's BoxID shape). -/
def isBoxIdChar (c : Char) : Bool :=
  ('0' ≤ c && c ≤ '9') || ('A' ≤ c && c ≤ 'H') || ('J' ≤ c && c ≤ 'N') || ('P' ≤ c && c ≤ 'Z')

/-- Lowercase hex alphabet used by `hex::encode`. -/
def HEX_LOWER : List Char := "0123456789abcdef".toList

/-- Modelled from the dependency: `hex::encode` renders each byte as two
lowercase hex digits, high nibble first (bytes are `< 256`, hence the
`% 16` guards are exact). -/
def hexEncode : List Nat → List Char
  | [] => []
  | b :: rest => HEX_LOWER.getD (b / 16 % 16) '0' :: HEX_LOWER.getD (b % 16) '0' :: hexEncode rest

/-- `ContainerId::new` from `runtime/types.rs`: SHA-256 of 32 random bytes,
hex encoded. The 32-byte digest produced by `Sha256::finalize` is the
parameter (SHA-256 always yields exactly 32 bytes). -/
def containerIdNew (digest : List Nat) : List Char :=
  hexEncode digest

/-- Character class of the regex `[0-9a-f]` (the spec's ContainerID shape). -/
def isHexLowerChar (c : Char) : Bool :=
  ('0' ≤ c && c ≤ '9') || ('a' ≤ c && c ≤ 'f')

theorem crockford_chars_ok : ∀ m, m < 32 → isBoxIdChar (CROCKFORD.getD m '0') = true := by
  decide

theorem hex_chars_ok : ∀ m, m < 16 → isHexLowerChar (HEX_LOWER.getD m '0') = true := by
  decide

theorem generate_box_id_length (v : Nat) : (generate_box_id v).length = 26 := by
  simp [generate_box_id, ulidToString]

theorem generate_box_id_chars (v : Nat) :
    (generate_box_id v).all isBoxIdChar = true := by
  rw [List.all_eq_true]
  intro c hc
  simp only [generate_box_id, ulidToString, List.mem_map] at hc
  obtain ⟨i, _, rfl⟩ := hc
  exact crockford_chars_ok _ (Nat.mod_lt _ (by norm_num))

theorem hexEncode_length (bytes : List Nat) :
    (hexEncode bytes).length = 2 * bytes.length := by
  induction bytes with
  | nil => rfl
  | cons b rest ih => simp [hexEncode, ih]; omega

theorem hexEncode_chars (bytes : List Nat) :
    (hexEncode bytes).all isHexLowerChar = true := by
  induction bytes with
  | nil => rfl
  | cons b rest ih =>
    simp only [hexEncode, List.all_cons, Bool.and_eq_true]
    refine ⟨hex_chars_ok _ (Nat.mod_lt _ (by norm_num)),
            hex_chars_ok _ (Nat.mod_lt _ (by norm_num)), ?_⟩
    exact ih

/-- Claim C5: every BoxID produced by `generate_box_id` is a 26-character
string over the Crockford class `[0-9A-HJ-NP-Z]`, and every ContainerId
produced by `ContainerId::new` is the 64-character lowercase-hex encoding
of its 32-byte SHA-256 digest. -/
theorem id_shapes (v : Nat) (digest : List Nat) (hlen : digest.length = 32) :
    (generate_box_id v).length = 26 ∧
    (generate_box_id v).all isBoxIdChar = true ∧
    (containerIdNew digest).length = 64 ∧
    (containerIdNew digest).all isHexLowerChar = true := by
  refine ⟨generate_box_id_length v, generate_box_id_chars v, ?_, hexEncode_chars digest⟩
  rw [containerIdNew, hexEncode_length, hlen]

theorem id_shapes_witness :
    (List.replicate 32 (0 : Nat)).length = 32 ∧
    ((generate_box_id 0).length = 26 ∧
     (generate_box_id 0).all isBoxIdChar = true ∧
     (containerIdNew (List.replicate 32 0)).length = 64 ∧
     (containerIdNew (List.replicate 32 0)).all isHexLowerChar = true) :=
  ⟨by decide, id_shapes 0 (List.replicate 32 0) (by decide)⟩

-- ============================================================================
-- C3: CLI exit-code mapping (src/boxlite-cli/src/commands/run.rs, BoxRunner::run)
-- ============================================================================

/-- Exit-code mapping at the end of `BoxRunner::run`: a non-zero
`status.exit_code` makes the process exit with `128 + code.abs()` when the
code is negative (signal encoding) and with the code itself otherwise;
a zero exit code falls through to `Ok(())`, i.e. process exit code 0. -/
def cliExitCode (exit_code : Int) : Int :=
  if exit_code ≠ 0 then
    if exit_code < 0 then 128 + |exit_code| else exit_code
  else 0

/-- Claim C3: at the CLI boundary a signal-encoded result `-n` (signal `n > 0`)
exits with `128 + n`, a positive exit code passes through unchanged, and exit
code 0 yields a successful (code 0) exit. -/
theorem cli_exit_code_mapping (n c : Int) :
    (0 < n → cliExitCode (-n) = 128 + n) ∧
    (0 < c → cliExitCode c = c) ∧
    cliExitCode 0 = 0 := by
  refine ⟨fun hn => ?_, fun hc => ?_, by simp [cliExitCode]⟩
  · have h1 : -n ≠ 0 := by omega
    have h2 : -n < 0 := by omega
    simp [cliExitCode, h1, h2, abs_of_neg h2]
  · have h1 : c ≠ 0 := by omega
    have h2 : ¬ c < 0 := by omega
    simp [cliExitCode, h1, h2]

theorem cli_exit_code_mapping_witness :
    (cliExitCode (-15) = 128 + 15) ∧ (cliExitCode 42 = 42) ∧ cliExitCode 0 = 0 :=
  ⟨(cli_exit_code_mapping 15 42).1 (by norm_num),
   (cli_exit_code_mapping 15 42).2.1 (by norm_num),
   (cli_exit_code_mapping 15 42).2.2⟩

-- ============================================================================
-- BoxImpl operations (src/boxlite/src/litebox/box_impl.rs)
-- ============================================================================

/-- The message of the `Stopped` error returned by every VM-requiring
operation once the box's shutdown token has been cancelled. -/
def handleInvalidatedMsg : String :=
  "Handle invalidated after stop(). Use runtime.get() to get a new handle."

/-- The per-handle state an operation's guard inspects: the cancellation
token of the `BoxImpl` and its current status. -/
structure HandleState where
  tokenCancelled : Bool
  status : BoxStatus
deriving DecidableEq, Repr

/-- `BoxImpl::exec`: first checks `shutdown_token.is_cancelled()` and returns
`Stopped` if so; the remainder of the function (live-state init, env
injection, the guest call, metric updates) is the continuation `rest`. -/
def execOp {α : Type} (h : HandleState) (rest : Except BoxliteError α) : Except BoxliteError α :=
  if h.tokenCancelled then .error (.Stopped handleInvalidatedMsg) else rest

/-- `BoxImpl::metrics`: same cancellation guard before touching LiveState. -/
def metricsOp {α : Type} (h : HandleState) (rest : Except BoxliteError α) : Except BoxliteError α :=
  if h.tokenCancelled then .error (.Stopped handleInvalidatedMsg) else rest

/-- `BoxImpl::copy_into`: same cancellation guard before touching LiveState. -/
def copyIntoOp {α : Type} (h : HandleState) (rest : Except BoxliteError α) : Except BoxliteError α :=
  if h.tokenCancelled then .error (.Stopped handleInvalidatedMsg) else rest

/-- `BoxImpl::copy_out`: same cancellation guard before touching LiveState. -/
def copyOutOp {α : Type} (h : HandleState) (rest : Except BoxliteError α) : Except BoxliteError α :=
  if h.tokenCancelled then .error (.Stopped handleInvalidatedMsg) else rest

/-- `BoxImpl::start`: cancellation guard, then idempotent no-op when already
Running, `InvalidState` when the status cannot start, else lazy
initialization (the continuation `initResult`). -/
def startOp (h : HandleState) (initResult : Except BoxliteError Unit) : Except BoxliteError Unit :=
  if h.tokenCancelled then .error (.Stopped handleInvalidatedMsg)
  else if h.status = .Running then .ok ()
  else if !h.status.can_start then
    .error (.InvalidState "Cannot start box in this state")
  else initResult

/-- Whether a result is the `Stopped` ("handle invalidated") error. -/
def isStoppedErr {α : Type} : Except BoxliteError α → Bool
  | .error (.Stopped _) => true
  | _ => false

-- ============================================================================
-- BoxImpl::stop (src/boxlite/src/litebox/box_impl.rs, lines 284-373)
-- ============================================================================

/-- Result of `BoxManager::save_box` as observed by `stop()`. -/
inductive SaveBoxRes where
  | ok
  | notFound
  | dbError
deriving DecidableEq, Repr

/-- The world a `stop()` call reads and writes: the box's own state plus the
runtime structures it touches (PID file, DB row, handle caches, the
`boxes_stopped` counter). -/
structure BoxWorld where
  status : BoxStatus
  pid : Option Nat
  tokenCancelled : Bool
  pidFileExists : Bool
  dbHasBox : Bool
  cacheHasId : Bool
  cacheHasName : Bool
  boxesStopped : Nat
  lockId : Option Nat
  autoRemove : Bool
deriving DecidableEq, Repr

/-- Tail of `stop()` after the DB write succeeded: invalidate the runtime's
cache entries by id and name, bump the `boxes_stopped` counter, then run
`Runtime.remove_box(id, force = false)` when `auto_remove` was set
(`remove_box` deletes the DB row and drops the cache entries; its interior
lives in `runtime/rt_impl.rs`, modelled from the spec §4.11). -/
def stopAfterDb (w : BoxWorld) (removeOk : Bool) : BoxWorld × Except BoxliteError Unit :=
  let w := { w with cacheHasId := false, cacheHasName := false }
  let w := { w with boxesStopped := w.boxesStopped + 1 }
  if w.autoRemove then
    if removeOk then ({ w with dbHasBox := false }, .ok ())
    else (w, .error (.NotFound "remove failed"))
  else (w, .ok ())

/-- `BoxImpl::stop`: early `Ok` when already Stopped; otherwise cancel the
token, stop the guest and VMM handler when LiveState exists (propagating a
handler error), delete the PID file, set status Stopped / clear the pid,
sync the DB (`save_box` when the box was persisted, treating `NotFound` as
success and returning early; `add_box` when it never was), invalidate the
caches and bump the stopped counter, and auto-remove when configured.
Results of the fallible collaborators enter as parameters. -/
def stopModel (w : BoxWorld) (hasLive handlerStopOk : Bool) (saveRes : SaveBoxRes)
    (addOk removeOk : Bool) : BoxWorld × Except BoxliteError Unit :=
  if w.status = .Stopped then (w, .ok ())
  else
    let w1 := { w with tokenCancelled := true }
    if hasLive && !handlerStopOk then (w1, .error (.Engine "handler stop failed"))
    else
      let w2 := { w1 with pidFileExists := false }
      let wasPersisted := w2.lockId.isSome
      let w3 := { w2 with status := .Stopped, pid := none }
      if wasPersisted then
        match saveRes with
        | .ok => stopAfterDb w3 removeOk
        | .notFound => (w3, .ok ())
        | .dbError => (w3, .error (.Database "save failed"))
      else
        if addOk then stopAfterDb { w3 with dbHasBox := true } removeOk
        else (w3, .error (.Database "add failed"))

/-- Claim C6: `stop()` on an already-Stopped box returns `Ok` at once and
changes nothing: the token is not cancelled, the PID file, the DB row, the
caches and the `boxes_stopped` counter are all untouched. -/
theorem stop_idempotent_on_stopped (w : BoxWorld) (hasLive handlerStopOk : Bool)
    (saveRes : SaveBoxRes) (addOk removeOk : Bool) (h : w.status = .Stopped) :
    stopModel w hasLive handlerStopOk saveRes addOk removeOk = (w, .ok ()) := by
  simp [stopModel, h]

theorem stop_idempotent_on_stopped_witness :
    stopModel ⟨.Stopped, none, false, true, true, true, true, 3, some 7, false⟩
      true true .ok true true
      = (⟨.Stopped, none, false, true, true, true, true, 3, some 7, false⟩, .ok ()) :=
  stop_idempotent_on_stopped _ true true .ok true true rfl

-- ============================================================================
-- C1: handle invalidation after stop()
-- ============================================================================

/-- Modelled from the spec: `runtime.get(id)` builds a fresh `BoxImpl` whose
cancellation token is a new (uncancelled) child of the runtime token, with
the status read back from the DB (§4.11, §5 "Tokens are one-shot; once
cancelled, a new BoxImpl must be obtained via `runtime.get`";
`runtime/rt_impl.rs` is not among the provided sources). -/
def freshHandle (dbStatus : BoxStatus) : HandleState :=
  ⟨false, dbStatus⟩

theorem stopAfterDb_token (w : BoxWorld) (removeOk : Bool) :
    (stopAfterDb w removeOk).1.tokenCancelled = w.tokenCancelled := by
  unfold stopAfterDb
  dsimp only
  split
  · split <;> rfl
  · rfl

theorem stop_cancels_token (w : BoxWorld) (hasLive handlerStopOk : Bool)
    (saveRes : SaveBoxRes) (addOk removeOk : Bool) (h : w.status ≠ .Stopped) :
    (stopModel w hasLive handlerStopOk saveRes addOk removeOk).1.tokenCancelled = true := by
  unfold stopModel
  rw [if_neg h]
  dsimp only
  split
  · rfl
  · split
    · cases saveRes
      · rw [stopAfterDb_token]
      · rfl
      · rfl
    · split
      · rw [stopAfterDb_token]
      · rfl

/-- Claim C1: after `stop()` has cancelled the handle's shutdown token, every
further VM-requiring operation on that same handle — start, exec, metrics,
copy_into, copy_out — returns a `Stopped` error (whatever the rest of the
operation would have produced), `stop()` on a not-yet-stopped box does cancel
the token, and a fresh handle from `runtime.get(id)` (new token, status
Stopped from the DB) passes the guards: its operations run their continuation
instead of failing with `Stopped`. -/
theorem handle_invalidation_after_stop (h : HandleState) (w : BoxWorld)
    (hasLive handlerStopOk : Bool) (saveRes : SaveBoxRes) (addOk removeOk : Bool)
    (restU : Except BoxliteError Unit) (restN : Except BoxliteError Nat)
    (hTok : h.tokenCancelled = true) (hW : w.status ≠ .Stopped) :
    startOp h restU = .error (.Stopped handleInvalidatedMsg) ∧
    execOp h restN = .error (.Stopped handleInvalidatedMsg) ∧
    metricsOp h restN = .error (.Stopped handleInvalidatedMsg) ∧
    copyIntoOp h restU = .error (.Stopped handleInvalidatedMsg) ∧
    copyOutOp h restU = .error (.Stopped handleInvalidatedMsg) ∧
    (stopModel w hasLive handlerStopOk saveRes addOk removeOk).1.tokenCancelled = true ∧
    startOp (freshHandle .Stopped) restU = restU ∧
    execOp (freshHandle .Stopped) restN = restN ∧
    metricsOp (freshHandle .Stopped) restN = restN ∧
    copyIntoOp (freshHandle .Stopped) restU = restU ∧
    copyOutOp (freshHandle .Stopped) restU = restU := by
  refine ⟨by simp [startOp, hTok], by simp [execOp, hTok], by simp [metricsOp, hTok],
    by simp [copyIntoOp, hTok], by simp [copyOutOp, hTok],
    stop_cancels_token w hasLive handlerStopOk saveRes addOk removeOk hW,
    by simp [startOp, freshHandle, BoxStatus.can_start],
    by simp [execOp, freshHandle], by simp [metricsOp, freshHandle],
    by simp [copyIntoOp, freshHandle], by simp [copyOutOp, freshHandle]⟩

theorem handle_invalidation_after_stop_witness :
    (⟨true, .Running⟩ : HandleState).tokenCancelled = true ∧
    (⟨.Running, some 5, false, true, true, true, true, 0, some 1, false⟩ : BoxWorld).status ≠
      .Stopped ∧
    startOp ⟨true, .Running⟩ (.ok ()) = .error (.Stopped handleInvalidatedMsg) :=
  ⟨rfl, by decide,
    (handle_invalidation_after_stop ⟨true, .Running⟩
      ⟨.Running, some 5, false, true, true, true, true, 0, some 1, false⟩
      true true .ok true true (.ok ()) (.ok 0) rfl (by decide)).1⟩

-- ============================================================================
-- C9: exec metric instrumentation (box_impl.rs lines 232-246,
-- metrics/runtime_metrics.rs)
-- ============================================================================

/-- The two per-box and two runtime-wide counters `exec` touches:
`commands_executed` / `exec_errors` on `BoxMetricsStorage` and
`total_commands` / `total_exec_errors` on `RuntimeMetricsStorage`
(all monotonic atomics; `Default` starts them at 0). -/
structure ExecCounters where
  commandsExecuted : Nat
  execErrors : Nat
  totalCommands : Nat
  totalExecErrors : Nat
deriving DecidableEq, Repr

/-- Initial counter state (`RuntimeMetricsStorage::new` / `Default`). -/
def ExecCounters.zero : ExecCounters := ⟨0, 0, 0, 0⟩

/-- The instrumentation block of `BoxImpl::exec` after the guest call:
unconditionally `increment_commands_executed` and `total_commands += 1`,
and additionally bump both error counters exactly when the result was an
error. `isErr` is `result.is_err()`. -/
def execInstrument (c : ExecCounters) (isErr : Bool) : ExecCounters :=
  { commandsExecuted := c.commandsExecuted + 1
    execErrors := c.execErrors + (if isErr then 1 else 0)
    totalCommands := c.totalCommands + 1
    totalExecErrors := c.totalExecErrors + (if isErr then 1 else 0) }

/-- Counter state after a sequence of exec calls that reached the guest
session, each recorded by whether its result was an error. -/
def runExecs (events : List Bool) : ExecCounters :=
  events.foldl execInstrument ExecCounters.zero

theorem runExecs_general (events : List Bool) (c : ExecCounters) :
    events.foldl execInstrument c =
      { commandsExecuted := c.commandsExecuted + events.length
        execErrors := c.execErrors + (events.filter id).length
        totalCommands := c.totalCommands + events.length
        totalExecErrors := c.totalExecErrors + (events.filter id).length } := by
  induction events generalizing c with
  | nil => simp
  | cons e rest ih =>
    rw [List.foldl_cons, ih]
    cases e <;> simp [execInstrument, List.filter] <;> omega

/-- Claim C9: every exec that reaches the guest session bumps the per-box
`commands_executed` and runtime-wide `total_commands` counters exactly once,
bumps both exec-error counters exactly when the result is an error, and as a
consequence `total_exec_errors` never exceeds `total_commands` (both per-box
and runtime-wide, starting from fresh counters). -/
theorem exec_counter_invariant (events : List Bool) :
    (runExecs events).commandsExecuted = events.length ∧
    (runExecs events).totalCommands = events.length ∧
    (runExecs events).execErrors = (events.filter id).length ∧
    (runExecs events).totalExecErrors = (events.filter id).length ∧
    (∀ c isErr, (execInstrument c isErr).totalCommands = c.totalCommands + 1 ∧
      (execInstrument c isErr).commandsExecuted = c.commandsExecuted + 1 ∧
      (execInstrument c isErr).totalExecErrors =
        c.totalExecErrors + (if isErr then 1 else 0)) ∧
    (runExecs events).totalExecErrors ≤ (runExecs events).totalCommands := by
  have h := runExecs_general events ExecCounters.zero
  rw [runExecs, h]
  refine ⟨by simp [ExecCounters.zero], by simp [ExecCounters.zero],
    by simp [ExecCounters.zero], by simp [ExecCounters.zero],
    fun c isErr => ⟨rfl, rfl, rfl⟩, ?_⟩
  simpa [ExecCounters.zero] using List.length_filter_le id events

-- ============================================================================
-- C2: BoxBuilder.build cleanup-guard discipline (litebox/init/mod.rs 175-254,
-- box_impl.rs init_live_state 496-573)
-- ============================================================================

/-- Outcome of one `BoxBuilder::build` run: whether it succeeded and whether
the context's `CleanupGuard` is still armed when the function exits (an armed
guard tears partial resources down when dropped). -/
structure BuildOutcome where
  success : Bool
  guardArmedAtExit : Bool
deriving DecidableEq, Repr

/-- `BoxBuilder::build`: the pipeline context starts with an armed
`CleanupGuard`; when `status != Starting` the builder disarms it *before*
executing the plan (`if status != BoxStatus::Starting \x7b ctx.guard.disarm() \x7d`).
The plan's stages then run in order (`stageOk` lists their results; the
executor stops at the first failure and `?`-propagates it). On pipeline
success the builder takes the handler from the guard (`Internal` error when
absent), disarms the guard, then takes the guest session (`Internal` error
when absent — note this check runs after the disarm). -/
def buildModel (status : BoxStatus) (stageOk : List Bool)
    (handlerSet sessionSet : Bool) : BuildOutcome :=
  let armed0 := status = BoxStatus.Starting
  if !stageOk.all id then ⟨false, armed0⟩
  else if !handlerSet then ⟨false, armed0⟩
  else if !sessionSet then ⟨false, false⟩
  else ⟨true, false⟩

/-- `BoxImpl::init_live_state` after `build()` returns, in source order
(box_impl.rs 528-563): any `build()` failure `?`-returns with the stored
status untouched; then `read_pid_file` (`?`-propagating failure, status still
untouched); then, inside the state write-lock, `set_pid` and
`set_status(Running)` are executed *before* `save_box`, so a failing DB save
`?`-returns with the in-memory status already `Running`; on success the
cleanup guard is disarmed afterwards. Returns the in-memory status and
whether the call succeeded. -/
def initLiveState (initialStatus : BoxStatus) (buildOk pidReadOk saveOk : Bool) :
    BoxStatus × Bool :=
  if !buildOk then (initialStatus, false)
  else if !pidReadOk then (initialStatus, false)
  else if !saveOk then (BoxStatus.Running, false)
  else (BoxStatus.Running, true)

/-- Claim C2 counterexample, refuting both universal clauses of the claim at
explicit inputs. First, on a restart (initial status Stopped) whose very
first pipeline stage fails, the cleanup guard is already disarmed when
`build()` exits — the builder disarmed it *before* running any stage —
contradicting "regardless of the initial box status … if any stage fails the
guard stays armed". Second, a first `start()` whose stages all succeed but
whose `save_box` fails returns an error with the in-memory status already set
to `Running` — contradicting "a failed first start() leaves the box in
Configured (never Unknown or Running)". -/
theorem build_guard_restart_counterexample :
    ((buildModel .Stopped [false] true true).success = false ∧
      ¬ (buildModel .Stopped [false] true true).guardArmedAtExit = true) ∧
    ((initLiveState .Configured true true false).2 = false ∧
      initLiveState .Configured true true false = (.Running, false) ∧
      ¬ (initLiveState .Configured true true false).1 = .Configured) := by
  decide

/-- Claim C2 (amended): on a *first start* (plan for status Starting) the
guard is disarmed only after all pipeline stages have succeeded — any stage
failure leaves it armed so its drop tears down partial resources, and the
all-stages-succeed run (with handler and session present) disarms it; on
restart and reattach (status Stopped / Running) the builder instead disarms
the guard before the pipeline runs, so it exits disarmed regardless of stage
outcomes. A failed first `start()` never leaves the box in Unknown, and a
failure in the pipeline or the PID-file read leaves it in Configured; but
`init_live_state` sets the in-memory status to Running *before* `save_box`,
so a first start whose DB save fails leaves the in-memory status Running
while a successful one also ends Running. -/
theorem build_guard_discipline (stageOk : List Bool) (handlerSet sessionSet : Bool)
    (status : BoxStatus) (buildOk pidReadOk saveOk : Bool)
    (hFail : stageOk.all id = false) (hRestart : status = .Stopped ∨ status = .Running)
    (hNotOk : buildOk = false ∨ pidReadOk = false) :
    (buildModel .Starting stageOk handlerSet sessionSet).guardArmedAtExit = true ∧
    buildModel .Starting (List.replicate stageOk.length true) true true = ⟨true, false⟩ ∧
    (buildModel status stageOk handlerSet sessionSet).guardArmedAtExit = false ∧
    (buildModel status (List.replicate stageOk.length true) handlerSet
      sessionSet).guardArmedAtExit = false ∧
    (initLiveState .Configured buildOk pidReadOk saveOk).1 = .Configured ∧
    initLiveState .Configured true true false = (.Running, false) ∧
    initLiveState .Configured true true true = (.Running, true) ∧
    (∀ b pr s, (initLiveState .Configured b pr s).1 ≠ .Unknown) := by
  have hall : (List.replicate stageOk.length true).all id = true := by
    simp [List.all_eq_true]
  refine ⟨?_, ?_, ?_, ?_, ?_, rfl, rfl, ?_⟩
  · simp [buildModel, hFail]
  · simp [buildModel, hall]
  · rcases hRestart with h | h <;> subst h <;> simp [buildModel, hFail]
  · rcases hRestart with h | h <;> subst h <;> simp [buildModel, hall] <;>
      cases handlerSet <;> cases sessionSet <;> simp
  · rcases hNotOk with h | h <;> simp [initLiveState, h]
  · intro b pr s
    cases b <;> cases pr <;> cases s <;> simp [initLiveState]

theorem build_guard_discipline_witness :
    ([false, true].all id = false ∧
      (BoxStatus.Stopped = BoxStatus.Stopped ∨ BoxStatus.Stopped = BoxStatus.Running) ∧
      (false = false ∨ true = false)) ∧
    (buildModel .Starting [false, true] true true).guardArmedAtExit = true :=
  ⟨⟨by decide, Or.inl rfl, Or.inl rfl⟩,
    (build_guard_discipline [false, true] true true .Stopped false true false
      (by decide) (Or.inl rfl) (Or.inl rfl)).1⟩

-- ============================================================================
-- C10: ShimHandler::stop totality (src/boxlite/src/vmm/controller/shim.rs 76-157)
-- ============================================================================

/-- What one `process.try_wait()` call reports in the `from_child` branch. -/
inductive TryWaitRes where
  | exited
  | stillRunning
  | errStatus
deriving DecidableEq, Repr

/-- What one `waitpid(pid, WNOHANG)` call reports in the attached branch:
positive result (reaped), zero (still running), or negative with the
`kill(pid, 0)` fallback saying the process is gone / still exists. -/
inductive WaitpidRes where
  | reaped
  | stillRunning
  | errGone
  | errAlive
deriving DecidableEq, Repr

/-- Graceful-shutdown budget: `GRACEFUL_SHUTDOWN_TIMEOUT_MS = 2000`,
polled every 50 ms. -/
def gracefulTimeoutMs : Nat := 2000

/-- The `from_child` loop of `ShimHandler::stop` after the initial SIGTERM:
iteration `i` runs with `start.elapsed() = 50 * i` (one 50 ms sleep per
round). `try_wait` exited → `Ok`; error → kill + wait, `Ok`; still running →
force-kill and `Ok` once the elapsed time exceeds the budget, else sleep and
poll again. `tries i` is what the i-th `try_wait` call reports. -/
def stopFromChild (tries : Nat → TryWaitRes) (i : Nat) : Except BoxliteError Unit :=
  match tries i with
  | .exited => .ok ()
  | .errStatus => .ok ()
  | .stillRunning =>
    if 50 * i > gracefulTimeoutMs then .ok ()
    else stopFromChild tries (i + 1)
termination_by (gracefulTimeoutMs / 50 + 1) - i
decreasing_by simp only [gracefulTimeoutMs] at *; omega

/-- The attached-mode loop of `ShimHandler::stop` (no `Child` handle): after
SIGTERM, poll `waitpid(WNOHANG)`; reaped → `Ok`; error with the process gone
→ `Ok`; otherwise SIGKILL and `Ok` once the budget has elapsed, else sleep
50 ms and poll again. `polls i` is what the i-th poll reports. -/
def stopFromPid (polls : Nat → WaitpidRes) (i : Nat) : Except BoxliteError Unit :=
  match polls i with
  | .reaped => .ok ()
  | .errGone => .ok ()
  | .stillRunning =>
    if 50 * i > gracefulTimeoutMs then .ok ()
    else stopFromPid polls (i + 1)
  | .errAlive =>
    if 50 * i > gracefulTimeoutMs then .ok ()
    else stopFromPid polls (i + 1)
termination_by (gracefulTimeoutMs / 50 + 1) - i
decreasing_by all_goals simp only [gracefulTimeoutMs] at *; omega

/-- `ShimHandler::stop`: dispatches on whether the handler still owns the
`Child` (`from_child`) or only a PID (`from_pid` / attach). -/
def shimHandlerStop (hasChild : Bool) (tries : Nat → TryWaitRes)
    (polls : Nat → WaitpidRes) : Except BoxliteError Unit :=
  if hasChild then stopFromChild tries 0 else stopFromPid polls 0

theorem stopFromChild_ok (tries : Nat → TryWaitRes) (i : Nat) :
    stopFromChild tries i = .ok () := by
  rw [stopFromChild]
  split
  · rfl
  · rfl
  · split
    · rfl
    · exact stopFromChild_ok tries (i + 1)
termination_by (gracefulTimeoutMs / 50 + 1) - i
decreasing_by simp only [gracefulTimeoutMs] at *; omega

theorem stopFromPid_ok (polls : Nat → WaitpidRes) (i : Nat) :
    stopFromPid polls i = .ok () := by
  rw [stopFromPid]
  split
  · rfl
  · rfl
  · split
    · rfl
    · exact stopFromPid_ok polls (i + 1)
  · split
    · rfl
    · exact stopFromPid_ok polls (i + 1)
termination_by (gracefulTimeoutMs / 50 + 1) - i
decreasing_by all_goals simp only [gracefulTimeoutMs] at *; omega

/-- Claim C10: `ShimHandler::stop` is total — for every handler (spawned
`from_child` or attached `from_pid`) and every behaviour of the target
process across the polls (already exited, exiting within the 2000 ms grace
period, or needing SIGKILL), it returns `Ok` and never surfaces an error. -/
theorem shim_stop_total (hasChild : Bool) (tries : Nat → TryWaitRes)
    (polls : Nat → WaitpidRes) :
    shimHandlerStop hasChild tries polls = .ok () := by
  unfold shimHandlerStop
  split
  · exact stopFromChild_ok tries 0
  · exact stopFromPid_ok polls 0

-- ============================================================================
-- C8: guest readiness race (litebox/init/tasks/guest_connect.rs 66-150)
-- ============================================================================

/-- `startsWithSeg hay needle`: `needle` is a prefix of `hay`. -/
def startsWithSeg : List Char → List Char → Bool
  | _, [] => true
  | [], _ :: _ => false
  | h :: hs, n :: ns => h = n && startsWithSeg hs ns

/-- `containsSeg hay needle`: `needle` occurs contiguously inside `hay`. -/
def containsSeg : List Char → List Char → Bool
  | [], needle => startsWithSeg [] needle
  | h :: t, needle => startsWithSeg (h :: t) needle || containsSeg t needle

/-- Substring test on strings (used to check diagnostic error messages). -/
def containsStr (hay needle : String) : Bool :=
  containsSeg hay.toList needle.toList

/-- The diagnostic error returned when the shim process dies before the guest
signals readiness (verbatim from `wait_for_guest_ready`). -/
def shimDeathMsg : String :=
  "VM subprocess exited before guest became ready. Common causes: (1) AppArmor blocking bwrap — run: dmesg | grep apparmor, (2) /dev/kvm not accessible — check permissions, (3) missing shared libraries. See: ~/.boxlite/logs/boxlite-shim.log"

/-- The timeout error of `wait_for_guest_ready` with the 30 s budget filled in
(verbatim; `\x27` is the ASCII apostrophe). -/
def readyTimeoutMsg : String :=
  "Timeout waiting for guest ready (30s). Check logs: ~/.boxlite/logs/boxlite-shim.log, and system: dmesg | grep -i \x27apparmor\x5c|kvm\x27"

/-- Readiness timeout: `Duration::from_secs(30)`, in ms. -/
def readyTimeoutMs : Nat := 30000

/-- Shim liveness poll interval: `Duration::from_millis(500)`. -/
def shimPollMs : Nat := 500

/-- `wait_for_process_exit` polls `is_process_alive` after each 500 ms sleep,
so a process that dies at time `tDeath` is detected at the first poll instant
`500 * k` (with `k ≥ 1`) that is `≥ tDeath`. -/
def detectTime (tDeath : Nat) : Nat :=
  max shimPollMs (shimPollMs * ((tDeath + shimPollMs - 1) / shimPollMs))

/-- Completion time of the `timeout(30s, listener.accept())` branch: the
guest's connect time capped by the deadline (`tReady = none` when the guest
never connects). -/
def branchATime (tReady : Option Nat) : Nat :=
  match tReady with
  | some r => min r readyTimeoutMs
  | none => readyTimeoutMs

/-- Result of the `timeout(30s, accept)` branch: `Ok` when the guest
connected before the deadline, else the timeout diagnostic. -/
def branchAResult (tReady : Option Nat) : Except BoxliteError Unit :=
  match tReady with
  | some r => if r < readyTimeoutMs then .ok () else .error (.Engine readyTimeoutMsg)
  | none => .error (.Engine readyTimeoutMsg)

/-- The `tokio::select!` of `wait_for_guest_ready`: the ready/timeout branch
races `wait_for_process_exit(shim_pid)`; whichever completes strictly first
wins (`shim_pid = none` makes the death branch pend forever). Event times are
the model's inputs: `tReady` is when the guest connects to the ready socket,
`tDeath` when the shim process dies. -/
def waitForGuestReady (tReady tDeath : Option Nat) : Except BoxliteError Unit :=
  match tDeath with
  | none => branchAResult tReady
  | some d =>
    if detectTime d < branchATime tReady then .error (.Engine shimDeathMsg)
    else branchAResult tReady

theorem detectTime_within_poll (d : Nat) : d ≤ detectTime d ∧ detectTime d ≤ d + shimPollMs := by
  unfold detectTime shimPollMs
  omega

/-- Claim C8: the host races guest readiness, shim death (detected by a
500 ms liveness poll) and the 30 s timeout, and returns whichever fires
first: the guest connecting first yields `Ok`; the shim dying first yields —
within one poll interval of the death, not after the 30 s timeout — an
`Engine` error naming the probable root causes (AppArmor, /dev/kvm
permissions, missing libraries); and with neither event before the deadline
the 30 s timeout error is returned. -/
theorem guest_ready_race (r d : Nat) (tReady tDeath : Option Nat)
    (hr : r < readyTimeoutMs) (hrd : r < detectTime d)
    (hdr : ∀ t ∈ tReady, detectTime d < min t readyTimeoutMs)
    (hdT : detectTime d < readyTimeoutMs)
    (hNoReady : ∀ t ∈ tReady, readyTimeoutMs ≤ t)
    (hNoDeath : ∀ t ∈ tDeath, readyTimeoutMs ≤ detectTime t) :
    waitForGuestReady (some r) none = .ok () ∧
    waitForGuestReady (some r) (some d) = .ok () ∧
    waitForGuestReady tReady (some d) = .error (.Engine shimDeathMsg) ∧
    detectTime d ≤ d + shimPollMs ∧
    waitForGuestReady tReady tDeath = .error (.Engine readyTimeoutMsg) ∧
    containsStr shimDeathMsg "AppArmor" = true ∧
    containsStr shimDeathMsg "/dev/kvm" = true ∧
    containsStr shimDeathMsg "missing shared libraries" = true := by
  refine ⟨?_, ?_, ?_, (detectTime_within_poll d).2, ?_, by decide, by decide, by decide⟩
  · simp [waitForGuestReady, branchAResult, hr]
  · have : ¬ detectTime d < branchATime (some r) := by
      simp only [branchATime]
      omega
    simp [waitForGuestReady, this, branchAResult, hr]
  · have : detectTime d < branchATime tReady := by
      cases tReady with
      | none => simpa [branchATime] using hdT
      | some t => simpa [branchATime] using hdr t rfl
    simp [waitForGuestReady, this]
  · cases tDeath with
    | none =>
      cases tReady with
      | none => simp [waitForGuestReady, branchAResult]
      | some t =>
        have := hNoReady t rfl
        simp [waitForGuestReady, branchAResult]
        omega
    | some t =>
      have h1 := hNoDeath t rfl
      cases tReady with
      | none =>
        have : ¬ detectTime t < branchATime none := by simp [branchATime]; omega
        simp [waitForGuestReady, this, branchAResult]
      | some u =>
        have h2 := hNoReady u rfl
        have : ¬ detectTime t < branchATime (some u) := by
          simp only [branchATime]
          omega
        simp [waitForGuestReady, this, branchAResult]
        omega

theorem guest_ready_race_witness :
    (100 < readyTimeoutMs ∧ 100 < detectTime 700 ∧
      (∀ t ∈ (none : Option Nat), detectTime 700 < min t readyTimeoutMs) ∧
      detectTime 700 < readyTimeoutMs ∧
      (∀ t ∈ (none : Option Nat), readyTimeoutMs ≤ t) ∧
      (∀ t ∈ (none : Option Nat), readyTimeoutMs ≤ detectTime t)) ∧
    waitForGuestReady (some 100) none = .ok () :=
  ⟨⟨by decide, by decide, by simp, by decide, by simp, by simp⟩,
    (guest_ready_race 100 700 none none (by decide) (by decide)
      (by simp) (by decide) (by simp) (by simp)).1⟩

-- ============================================================================
-- String primitives shared by the CLI flag parsers (cli.rs)
-- ============================================================================

/-- Rust `str::split(sep)`: splits at every separator, keeping empty
segments; the empty string yields one empty segment. -/
def splitChar (sep : Char) : List Char → List (List Char)
  | [] => [[]]
  | c :: rest =>
    if c = sep then [] :: splitChar sep rest
    else
      match splitChar sep rest with
      | [] => [[c]]
      | s :: ss => (c :: s) :: ss

/-- Rust `str::split_once(sep)`: splits at the first separator only;
`none` when the separator does not occur. -/
def splitOnce (sep : Char) : List Char → Option (List Char × List Char)
  | [] => none
  | c :: rest =>
    if c = sep then some ([], rest)
    else (splitOnce sep rest).map (fun p => (c :: p.1, p.2))

/-- Rust `str::splitn(2, sep)`: at most two pieces, the second kept verbatim. -/
def splitN2 (sep : Char) (l : List Char) : List (List Char) :=
  match splitOnce sep l with
  | none => [l]
  | some (x, y) => [x, y]

/-- Rust `str::trim`: strip whitespace from both ends. -/
def trimList (l : List Char) : List Char :=
  ((l.dropWhile (·.isWhitespace)).reverse.dropWhile (·.isWhitespace)).reverse

/-- No whitespace at either end (so `trim` is the identity). -/
def noEdgeWs (l : List Char) : Bool :=
  (match l.head? with | some c => !c.isWhitespace | none => true) &&
  (match l.getLast? with | some c => !c.isWhitespace | none => true)

/-- Rust `u8::to_ascii_lowercase` on a char. -/
def asciiLower (c : Char) : Char :=
  if 'A' ≤ c && c ≤ 'Z' then Char.ofNat (c.toNat + 32) else c

/-- Rust `str::eq_ignore_ascii_case`. -/
def eqIgnoreAsciiCase : List Char → List Char → Bool
  | [], [] => true
  | a :: ta, b :: tb => (asciiLower a == asciiLower b) && eqIgnoreAsciiCase ta tb
  | _, _ => false

theorem splitChar_ne_nil (sep : Char) (l : List Char) : splitChar sep l ≠ [] := by
  cases l with
  | nil => simp [splitChar]
  | cons c rest =>
    rw [splitChar]
    split
    · simp
    · split <;> simp

theorem splitChar_no_sep (sep : Char) (l : List Char) (h : sep ∉ l) :
    splitChar sep l = [l] := by
  induction l with
  | nil => rfl
  | cons c rest ih =>
    have hc : ¬ c = sep := fun hcs => h (hcs ▸ List.mem_cons_self c rest)
    have hr : sep ∉ rest := fun hm => h (List.mem_cons_of_mem c hm)
    rw [splitChar, if_neg hc, ih hr]

theorem splitChar_append (sep : Char) (a b : List Char) (h : sep ∉ a) :
    splitChar sep (a ++ sep :: b) = a :: splitChar sep b := by
  induction a with
  | nil => simp [splitChar]
  | cons c t ih =>
    have hc : ¬ c = sep := fun hcs => h (hcs ▸ List.mem_cons_self c t)
    have ht : sep ∉ t := fun hm => h (List.mem_cons_of_mem c hm)
    rw [List.cons_append, splitChar, if_neg hc, ih ht]

theorem splitOnce_no_sep (sep : Char) (l : List Char) (h : sep ∉ l) :
    splitOnce sep l = none := by
  induction l with
  | nil => rfl
  | cons c rest ih =>
    have hc : ¬ c = sep := fun hcs => h (hcs ▸ List.mem_cons_self c rest)
    have hr : sep ∉ rest := fun hm => h (List.mem_cons_of_mem c hm)
    rw [splitOnce, if_neg hc, ih hr]
    rfl

theorem splitOnce_append (sep : Char) (a b : List Char) (h : sep ∉ a) :
    splitOnce sep (a ++ sep :: b) = some (a, b) := by
  induction a with
  | nil => simp [splitOnce]
  | cons c t ih =>
    have hc : ¬ c = sep := fun hcs => h (hcs ▸ List.mem_cons_self c t)
    have ht : sep ∉ t := fun hm => h (List.mem_cons_of_mem c hm)
    rw [List.cons_append, splitOnce, if_neg hc, ih ht]
    rfl

theorem dropWhile_eq_self_of_head (l : List Char)
    (h : (match l.head? with | some c => !c.isWhitespace | none => true) = true) :
    l.dropWhile (·.isWhitespace) = l := by
  cases l with
  | nil => rfl
  | cons c rest =>
    simp only [List.head?] at h
    have : c.isWhitespace = false := by
      cases hw : c.isWhitespace <;> simp [hw] at h ⊢
    simp [List.dropWhile, this]

theorem trimList_eq_self (l : List Char) (h : noEdgeWs l = true) : trimList l = l := by
  unfold noEdgeWs at h
  rw [Bool.and_eq_true] at h
  unfold trimList
  rw [dropWhile_eq_self_of_head l h.1]
  have hrev : (match l.reverse.head? with | some c => !c.isWhitespace | none => true) = true := by
    rw [List.head?_reverse]
    exact h.2
  rw [dropWhile_eq_self_of_head l.reverse hrev, List.reverse_reverse]

-- ============================================================================
-- C4: publish (-p) flag parsing (cli.rs 279-350)
-- ============================================================================

/-- Port protocol as stored in `PortSpec`. -/
inductive PortProtocol where
  | Tcp
  | Udp
deriving DecidableEq, Repr

/-- `boxlite::runtime::options::PortSpec` as filled in by `parse_publish_spec`. -/
structure PortSpec where
  host_port : Option Nat
  guest_port : Nat
  protocol : PortProtocol
  host_ip : Option (List Char)
deriving DecidableEq, Repr

/-- Value of a digit string (accumulator form of Rust's integer parsing). -/
def digitsVal (l : List Char) : Nat :=
  l.foldl (fun acc c => acc * 10 + (c.toNat - '0'.toNat)) 0

/-- Rust `u16::from_str`: an optional leading `+`, then one or more ASCII
digits, rejecting values above `u16::MAX`. -/
def rustParseU16 (s : List Char) : Option Nat :=
  let digits := match s with
    | '+' :: rest => rest
    | _ => s
  if digits.isEmpty then none
  else if digits.all (·.isDigit) then
    if digitsVal digits < 65536 then some (digitsVal digits) else none
  else none

/-- `parse_port` from cli.rs: `s.parse::<u16>()` mapped to
"invalid port number", then a rejection of port 0. -/
def parse_port (s : List Char) : Except String Nat :=
  match rustParseU16 s with
  | none => .error "invalid port number"
  | some n => if n = 0 then .error "port must be 1-65535" else .ok n

def tcpStr : List Char := ['t', 'c', 'p']

def udpStr : List Char := ['u', 'd', 'p']

/-- `parse_publish_spec` from cli.rs: trim; reject empty; split off an
optional `/proto` suffix (`tcp`/`udp`, ASCII case-insensitive, defaulting to
TCP); `splitn(2, ':')` the remainder into `[guest]` or `[host, guest]`;
parse the port numbers. -/
def parse_publish_spec (input : List Char) : Except String PortSpec :=
  let s := trimList input
  if s.isEmpty then .error "empty port spec"
  else
    match
      ((match splitOnce '/' s with
        | some (r, proto) =>
          if eqIgnoreAsciiCase proto tcpStr then Except.ok (trimList r, PortProtocol.Tcp)
          else if eqIgnoreAsciiCase proto udpStr then Except.ok (trimList r, PortProtocol.Udp)
          else Except.error "invalid protocol; use tcp or udp"
        | none => Except.ok (s, PortProtocol.Tcp)) :
        Except String (List Char × PortProtocol)) with
    | .error e => .error e
    | .ok (rest, protocol) =>
      match (splitN2 ':' rest).map trimList with
      | [guest] =>
        match parse_port guest with
        | .error e => .error e
        | .ok g => .ok ⟨none, g, protocol, none⟩
      | [host, guest] =>
        match parse_port host with
        | .error e => .error e
        | .ok h =>
          match parse_port guest with
          | .error e => .error e
          | .ok g => .ok ⟨some h, g, protocol, none⟩
      | _ => .error "invalid port spec"

/-- `PublishFlags::apply_to` for a single flag: parse the spec, emit a
warning iff the parsed protocol is UDP (the Bool), and push the parsed
`PortSpec` into `BoxOptions.ports` unchanged. -/
def apply_publish_one (input : List Char) : Except String (PortSpec × Bool) :=
  match parse_publish_spec input with
  | .error e => .error e
  | .ok spec => .ok (spec, spec.protocol == PortProtocol.Udp)

/-- Claim C4 counterexample: `-p 53:53/udp` is accepted with a warning, but
the `PortSpec` pushed into `BoxOptions.ports` still carries protocol UDP —
it is not downgraded to TCP in the stored options (the cli.rs warning says
the port "will be forwarded as TCP", i.e. the downgrade happens at
forwarding time, and `test_parse_publish_spec_udp` asserts the stored
protocol is `Udp`). -/
theorem publish_udp_counterexample :
    apply_publish_one ("53:53/udp".toList) =
      .ok (⟨some 53, 53, PortProtocol.Udp, none⟩, true) ∧
    (⟨some 53, 53, PortProtocol.Udp, none⟩ : PortSpec).protocol ≠ PortProtocol.Tcp := by
  constructor
  · rfl
  · decide

theorem parse_port_nonempty (s : List Char) (n : Nat) (h : parse_port s = .ok n) :
    s ≠ [] := by
  intro he
  subst he
  simp [parse_port, rustParseU16] at h

theorem noEdgeWs_iff (l : List Char) :
    noEdgeWs l = true ↔
      (∀ c, l.head? = some c → c.isWhitespace = false) ∧
      (∀ c, l.getLast? = some c → c.isWhitespace = false) := by
  unfold noEdgeWs
  rw [Bool.and_eq_true]
  constructor
  · rintro ⟨h1, h2⟩
    refine ⟨fun c hc => ?_, fun c hc => ?_⟩
    · rw [hc] at h1
      simpa using h1
    · rw [hc] at h2
      simpa using h2
  · rintro ⟨h1, h2⟩
    constructor
    · cases hl : l.head? with
      | none => rfl
      | some c => simpa using h1 c hl
    · cases hl : l.getLast? with
      | none => rfl
      | some c => simpa using h2 c hl

/-- Claim C4 (amended): every `[hostPort:]guestPort/udp` flag with valid port
numbers is accepted by `PublishFlags::apply_to`, the warning is emitted, and
the `PortSpec` stored in `BoxOptions.ports` keeps protocol UDP — the
downgrade to TCP happens at forwarding time, not in the stored options. -/
theorem publish_udp_accepted_as_udp (host guest : List Char) (hp gp : Nat)
    (hH1 : ':' ∉ host) (hH2 : '/' ∉ host) (hHe : noEdgeWs host = true)
    (hG1 : ':' ∉ guest) (hG2 : '/' ∉ guest) (hGe : noEdgeWs guest = true)
    (hph : parse_port host = .ok hp) (hpg : parse_port guest = .ok gp) :
    apply_publish_one ((host ++ ':' :: guest) ++ ('/' :: udpStr)) =
      .ok (⟨some hp, gp, PortProtocol.Udp, none⟩, true) ∧
    apply_publish_one (guest ++ ('/' :: udpStr)) =
      .ok (⟨none, gp, PortProtocol.Udp, none⟩, true) := by
  have hHne : host ≠ [] := parse_port_nonempty host hp hph
  have hGne : guest ≠ [] := parse_port_nonempty guest gp hpg
  have hHiff := (noEdgeWs_iff host).mp hHe
  have hGiff := (noEdgeWs_iff guest).mp hGe
  -- trim is the identity on `host ++ ':' :: guest`
  have hmid : trimList (host ++ ':' :: guest) = host ++ ':' :: guest := by
    apply trimList_eq_self
    rw [noEdgeWs_iff]
    constructor
    · intro c hc
      rw [List.head?_append_of_ne_nil host hHne] at hc
      exact hHiff.1 c hc
    · intro c hc
      rw [List.getLast?_append_cons] at hc
      obtain ⟨g0, gt, rfl⟩ := List.exists_cons_of_ne_nil hGne
      rw [show (':' :: (g0 :: gt)) = ([':'] ++ g0 :: gt) from rfl,
        List.getLast?_append_cons] at hc
      exact hGiff.2 c hc
  -- trim is the identity on the full input of the host:guest form
  have hfull1 : trimList ((host ++ ':' :: guest) ++ ('/' :: udpStr)) =
      (host ++ ':' :: guest) ++ ('/' :: udpStr) := by
    apply trimList_eq_self
    rw [noEdgeWs_iff]
    constructor
    · intro c hc
      rw [List.head?_append_of_ne_nil _ (by simp [hHne])] at hc
      rw [List.head?_append_of_ne_nil host hHne] at hc
      exact hHiff.1 c hc
    · intro c hc
      rw [List.getLast?_append_cons] at hc
      simp [udpStr, List.getLast?] at hc
      subst hc
      decide
  -- trim is the identity on the full input of the bare-guest form
  have hfull2 : trimList (guest ++ ('/' :: udpStr)) = guest ++ ('/' :: udpStr) := by
    apply trimList_eq_self
    rw [noEdgeWs_iff]
    constructor
    · intro c hc
      rw [List.head?_append_of_ne_nil guest hGne] at hc
      exact hGiff.1 c hc
    · intro c hc
      rw [List.getLast?_append_cons] at hc
      simp [udpStr, List.getLast?] at hc
      subst hc
      decide
  have hnosl : '/' ∉ host ++ ':' :: guest := by
    simp only [List.mem_append, List.mem_cons]
    rintro (h | h | h)
    · exact hH2 h
    · exact absurd h (by decide)
    · exact hG2 h
  have hsplit1 : splitOnce '/' ((host ++ ':' :: guest) ++ ('/' :: udpStr)) =
      some (host ++ ':' :: guest, udpStr) := splitOnce_append '/' _ udpStr hnosl
  have hsplit2 : splitOnce '/' (guest ++ ('/' :: udpStr)) = some (guest, udpStr) :=
    splitOnce_append '/' guest udpStr hG2
  have hmidsplit : splitOnce ':' (host ++ ':' :: guest) = some (host, guest) :=
    splitOnce_append ':' host guest hH1
  have htrimH : trimList host = host := trimList_eq_self host hHe
  have htrimG : trimList guest = guest := trimList_eq_self guest hGe
  have hne1 : ((host ++ ':' :: guest) ++ ('/' :: udpStr)).isEmpty = false := by
    simp [List.isEmpty_iff]
  have hne2 : (guest ++ ('/' :: udpStr)).isEmpty = false := by
    simp [List.isEmpty_iff]
  have hudp_tcp : ¬ (eqIgnoreAsciiCase udpStr tcpStr = true) := by decide
  have hudp_udp : eqIgnoreAsciiCase udpStr udpStr = true := by decide
  constructor
  · unfold apply_publish_one parse_publish_spec
    rw [hfull1]
    simp only [hne1, Bool.false_eq_true, if_false, hsplit1]
    rw [if_neg hudp_tcp, if_pos hudp_udp, hmid]
    simp only [splitN2, hmidsplit, List.map_cons, List.map_nil, htrimH, htrimG, hph, hpg]
    rfl
  · unfold apply_publish_one parse_publish_spec
    rw [hfull2]
    simp only [hne2, Bool.false_eq_true, if_false, hsplit2]
    rw [if_neg hudp_tcp, if_pos hudp_udp, htrimG]
    simp only [splitN2, splitOnce_no_sep ':' guest hG1, List.map_cons, List.map_nil,
      htrimG, hpg]
    rfl

theorem publish_udp_accepted_as_udp_witness :
    (':' ∉ ['5', '3'] ∧ '/' ∉ ['5', '3'] ∧ noEdgeWs ['5', '3'] = true ∧
      parse_port ['5', '3'] = .ok 53) ∧
    apply_publish_one ((['5', '3'] ++ ':' :: ['5', '3']) ++ ('/' :: udpStr)) =
      .ok (⟨some 53, 53, PortProtocol.Udp, none⟩, true) :=
  ⟨⟨by decide, by decide, by decide, rfl⟩,
    (publish_udp_accepted_as_udp ['5', '3'] ['5', '3'] 53 53 (by decide) (by decide)
      (by decide) (by decide) (by decide) (by decide) rfl rfl).1⟩

-- ============================================================================
-- C7: volume (-v) flag parsing (cli.rs 356-475)
-- ============================================================================

/-- Result of `parse_volume_spec`; anonymous volumes have `host_path = none`. -/
structure ParsedVolumeSpec where
  host_path : Option (List Char)
  guest_path : List Char
  read_only : Bool
deriving DecidableEq, Repr

def roStr : List Char := ['r', 'o']

def rwStr : List Char := ['r', 'w']

/-- `is_windows_drive` from cli.rs: the trimmed segment is a single ASCII
letter (a Windows drive such as the `C` of `C:\path`). -/
def is_windows_drive (segment : List Char) : Bool :=
  match trimList segment with
  | [c] => c.isAlpha
  | _ => false

/-- `parse_volume_read_only` from cli.rs: any comma-separated option equal to
`ro` (ASCII case-insensitive, trimmed); other options are ignored. -/
def parse_volume_read_only (opts : List Char) : Bool :=
  (splitChar ',' opts).any (fun o => eqIgnoreAsciiCase (trimList o) roStr)

/-- The shared final checks of `parse_volume_spec`: a present-but-empty host
path and an empty guest path are rejected. -/
def volumeFinish (host : Option (List Char)) (guest : List Char) (ro : Bool) :
    Except String ParsedVolumeSpec :=
  if (match host with | some h => h.isEmpty | none => false) then
    Except.error "volume host path must be non-empty"
  else if guest.isEmpty then Except.error "volume box path must be non-empty"
  else Except.ok ⟨host, guest, ro⟩

/-- `parse_volume_spec` from cli.rs: trim; reject empty; split on `:` and trim
each segment; then by segment count: 1 → anonymous absolute (or drive) path;
2 → anonymous-with-options when the second segment is `ro`/`rw`, else a bind
mount; 3 → Windows-drive host rejoin or bind-with-options; 4+ → only the
Windows-drive-with-options form; finally the shared emptiness checks. -/
def parse_volume_spec (input : List Char) : Except String ParsedVolumeSpec :=
  let s := trimList input
  if s.isEmpty then Except.error "empty volume spec"
  else
    match (splitChar ':' s).map trimList with
    | [p0] =>
      if p0.isEmpty then Except.error "volume box path must be non-empty"
      else if !(p0.head? == some '/') && !is_windows_drive p0 then
        Except.error "anonymous volume box path must be absolute"
      else volumeFinish none p0 false
    | [p0, p1] =>
      if eqIgnoreAsciiCase p1 roStr || eqIgnoreAsciiCase p1 rwStr then
        if p0.isEmpty then Except.error "volume box path must be non-empty"
        else volumeFinish none p0 (eqIgnoreAsciiCase p1 roStr)
      else volumeFinish (some p0) p1 false
    | [p0, p1, p2] =>
      if is_windows_drive p0 then volumeFinish (some (p0 ++ ':' :: p1)) p2 false
      else volumeFinish (some p0) p1 (parse_volume_read_only p2)
    | p0 :: p1 :: p2 :: p3 :: _ =>
      if is_windows_drive p0 then
        volumeFinish (some (p0 ++ ':' :: p1)) p2 (parse_volume_read_only p3)
      else Except.error "invalid volume spec"
    | [] => Except.error "invalid volume spec"

theorem eqIC_slash_ro (t : List Char) : eqIgnoreAsciiCase ('/' :: t) roStr = false := by
  simp only [roStr, eqIgnoreAsciiCase]
  simp [show (asciiLower '/' == asciiLower 'r') = false from by decide]

theorem eqIC_slash_rw (t : List Char) : eqIgnoreAsciiCase ('/' :: t) rwStr = false := by
  simp only [rwStr, eqIgnoreAsciiCase]
  simp [show (asciiLower '/' == asciiLower 'r') = false from by decide]

theorem noEdgeWs_append (a b : List Char) (hane : a ≠ []) (hbne : b ≠ [])
    (ha : noEdgeWs a = true) (hb : noEdgeWs b = true) : noEdgeWs (a ++ b) = true := by
  rw [noEdgeWs_iff] at ha hb ⊢
  constructor
  · intro c hc
    rw [List.head?_append_of_ne_nil a hane] at hc
    exact ha.1 c hc
  · intro c hc
    rw [List.getLast?_append_of_ne_nil a hbne] at hc
    exact hb.2 c hc

theorem noEdgeWs_singleton (c : Char) (hc : c.isWhitespace = false) :
    noEdgeWs [c] = true := by
  simp [noEdgeWs, hc]

theorem noEdgeWs_cons_append (c : Char) (b : List Char) (hc : c.isWhitespace = false)
    (hbne : b ≠ []) (hb : noEdgeWs b = true) : noEdgeWs (c :: b) = true :=
  noEdgeWs_append [c] b (by simp) hbne (noEdgeWs_singleton c hc) hb

/-- Claim C7: `parse_volume_spec` implements the stated grammar:
`hostPath:guestPath` is a bind mount with `read_only = false`,
`hostPath:guestPath:ro` sets `read_only = true`, a bare absolute `guestPath`
(resp. `guestPath:ro`) is an anonymous volume with `host_path = none`, the
Windows-drive forms `C:\path:/guest` and `C:\path:/guest:ro` keep the
drive-letter colon inside the host path, and empty host or guest segments
are rejected. -/
theorem volume_spec_grammar (host guest p : List Char) (d : Char)
    (hHne : host ≠ []) (hH1 : ':' ∉ host) (hHe : noEdgeWs host = true)
    (hHwin : is_windows_drive host = false)
    (hG1 : ':' ∉ guest) (hGe : noEdgeWs guest = true) (hGabs : guest.head? = some '/')
    (hPne : p ≠ []) (hP1 : ':' ∉ p) (hPe : noEdgeWs p = true)
    (hd : d.isAlpha = true) (hdw : d.isWhitespace = false) (hdc : d ≠ ':') :
    parse_volume_spec (host ++ ':' :: guest) = .ok ⟨some host, guest, false⟩ ∧
    parse_volume_spec (host ++ ':' :: (guest ++ ':' :: roStr)) =
      .ok ⟨some host, guest, true⟩ ∧
    parse_volume_spec guest = .ok ⟨none, guest, false⟩ ∧
    parse_volume_spec (guest ++ ':' :: roStr) = .ok ⟨none, guest, true⟩ ∧
    parse_volume_spec (d :: ':' :: (p ++ ':' :: guest)) =
      .ok ⟨some (d :: ':' :: p), guest, false⟩ ∧
    parse_volume_spec (d :: ':' :: (p ++ ':' :: (guest ++ ':' :: roStr))) =
      .ok ⟨some (d :: ':' :: p), guest, true⟩ ∧
    parse_volume_spec (':' :: guest) = .error "volume host path must be non-empty" ∧
    parse_volume_spec (host ++ [':']) = .error "volume box path must be non-empty" := by
  have hGne : guest ≠ [] := by
    intro h
    rw [h] at hGabs
    simp at hGabs
  obtain ⟨gt, rfl⟩ : ∃ t, guest = '/' :: t := by
    cases guest with
    | nil => simp at hGabs
    | cons g0 t =>
      simp only [List.head?, Option.some.injEq] at hGabs
      exact ⟨t, by rw [hGabs]⟩
  have happne : ∀ (a b : List Char), a ≠ [] → a ++ b ≠ [] := by
    intro a b ha h
    exact ha (List.append_eq_nil.mp h).1
  have hEmptyApp : ∀ (a : List Char) (c : Char) (b : List Char),
      (a ++ c :: b).isEmpty = false := by
    intro a c b
    cases a <;> rfl
  have hHempty : host.isEmpty = false := by
    cases host with
    | nil => exact absurd rfl hHne
    | cons x t => rfl
  have hroNe : roStr ≠ [] := by decide
  have hroColon : ':' ∉ roStr := by decide
  have hroE : noEdgeWs roStr = true := by decide
  have htrimH := trimList_eq_self host hHe
  have htrimG := trimList_eq_self ('/' :: gt) hGe
  have htrimP := trimList_eq_self p hPe
  have htrimRo : trimList roStr = roStr := by decide
  have htrimD : trimList [d] = [d] := trimList_eq_self [d] (noEdgeWs_singleton d hdw)
  have htrimNil : trimList ([] : List Char) = [] := by decide
  have hwinD : is_windows_drive [d] = true := by
    simp [is_windows_drive, htrimD, hd]
  have hdmem : ':' ∉ [d] := by
    intro h
    exact hdc (List.mem_singleton.mp h).symm
  have hro2 : ¬ ((eqIgnoreAsciiCase ('/' :: gt) roStr ||
      eqIgnoreAsciiCase ('/' :: gt) rwStr) = true) := by
    simp [eqIC_slash_ro, eqIC_slash_rw]
  have hroro : parse_volume_read_only roStr = true := by decide
  -- trim is the identity on every input form
  have nGro : noEdgeWs (('/' :: gt) ++ ':' :: roStr) = true :=
    noEdgeWs_append _ _ hGne (List.cons_ne_nil _ _) hGe
      (noEdgeWs_cons_append ':' roStr (by decide) hroNe hroE)
  have t1 : trimList (host ++ ':' :: ('/' :: gt)) = host ++ ':' :: ('/' :: gt) :=
    trimList_eq_self _ (noEdgeWs_append host _ hHne (List.cons_ne_nil _ _) hHe
      (noEdgeWs_cons_append ':' _ (by decide) hGne hGe))
  have t2 : trimList (host ++ ':' :: (('/' :: gt) ++ ':' :: roStr)) =
      host ++ ':' :: (('/' :: gt) ++ ':' :: roStr) :=
    trimList_eq_self _ (noEdgeWs_append host _ hHne (List.cons_ne_nil _ _) hHe
      (noEdgeWs_cons_append ':' _ (by decide) (happne _ _ hGne) nGro))
  have t4 : trimList (('/' :: gt) ++ ':' :: roStr) = ('/' :: gt) ++ ':' :: roStr :=
    trimList_eq_self _ nGro
  have n5i : noEdgeWs (p ++ ':' :: ('/' :: gt)) = true :=
    noEdgeWs_append p _ hPne (List.cons_ne_nil _ _) hPe
      (noEdgeWs_cons_append ':' _ (by decide) hGne hGe)
  have t5 : trimList ([d] ++ ':' :: (p ++ ':' :: ('/' :: gt))) =
      [d] ++ ':' :: (p ++ ':' :: ('/' :: gt)) :=
    trimList_eq_self _ (noEdgeWs_append [d] _ (by simp) (List.cons_ne_nil _ _)
      (noEdgeWs_singleton d hdw)
      (noEdgeWs_cons_append ':' _ (by decide) (happne _ _ hPne) n5i))
  have n6i : noEdgeWs (p ++ ':' :: (('/' :: gt) ++ ':' :: roStr)) = true :=
    noEdgeWs_append p _ hPne (List.cons_ne_nil _ _) hPe
      (noEdgeWs_cons_append ':' _ (by decide) (happne _ _ hGne) nGro)
  have t6 : trimList ([d] ++ ':' :: (p ++ ':' :: (('/' :: gt) ++ ':' :: roStr))) =
      [d] ++ ':' :: (p ++ ':' :: (('/' :: gt) ++ ':' :: roStr)) :=
    trimList_eq_self _ (noEdgeWs_append [d] _ (by simp) (List.cons_ne_nil _ _)
      (noEdgeWs_singleton d hdw)
      (noEdgeWs_cons_append ':' _ (by decide) (happne _ _ hPne) n6i))
  have t7 : trimList (':' :: ('/' :: gt)) = ':' :: ('/' :: gt) :=
    trimList_eq_self _ (noEdgeWs_cons_append ':' _ (by decide) hGne hGe)
  have t8 : trimList (host ++ [':']) = host ++ [':'] :=
    trimList_eq_self _ (noEdgeWs_append host [':'] hHne (by simp) hHe (by decide))
  -- splits of every input form
  have s1 : splitChar ':' (host ++ ':' :: ('/' :: gt)) = [host, '/' :: gt] := by
    rw [splitChar_append ':' host _ hH1, splitChar_no_sep ':' _ hG1]
  have s2 : splitChar ':' (host ++ ':' :: (('/' :: gt) ++ ':' :: roStr)) =
      [host, '/' :: gt, roStr] := by
    rw [splitChar_append ':' host _ hH1, splitChar_append ':' _ _ hG1,
      splitChar_no_sep ':' _ hroColon]
  have s3 : splitChar ':' ('/' :: gt) = ['/' :: gt] := splitChar_no_sep ':' _ hG1
  have s4 : splitChar ':' (('/' :: gt) ++ ':' :: roStr) = ['/' :: gt, roStr] := by
    rw [splitChar_append ':' _ _ hG1, splitChar_no_sep ':' _ hroColon]
  have s5 : splitChar ':' ([d] ++ ':' :: (p ++ ':' :: ('/' :: gt))) =
      [[d], p, '/' :: gt] := by
    rw [splitChar_append ':' [d] _ hdmem, splitChar_append ':' p _ hP1,
      splitChar_no_sep ':' _ hG1]
  have s6 : splitChar ':' ([d] ++ ':' :: (p ++ ':' :: (('/' :: gt) ++ ':' :: roStr))) =
      [[d], p, '/' :: gt, roStr] := by
    rw [splitChar_append ':' [d] _ hdmem, splitChar_append ':' p _ hP1,
      splitChar_append ':' _ _ hG1, splitChar_no_sep ':' _ hroColon]
  have s8 : splitChar ':' (host ++ [':']) = [host, []] := by
    rw [show (host ++ [':']) = (host ++ ':' :: []) from rfl, splitChar_append ':' host _ hH1]
    rfl
  refine ⟨?_, ?_, ?_, ?_, ?_, ?_, ?_, ?_⟩
  · unfold parse_volume_spec
    rw [t1]
    simp only [hEmptyApp, Bool.false_eq_true, if_false, s1, List.map_cons, List.map_nil,
      htrimH, htrimG]
    rw [if_neg hro2]
    simp [volumeFinish, hHempty]
  · unfold parse_volume_spec
    rw [t2]
    simp only [hEmptyApp, Bool.false_eq_true, if_false, s2, List.map_cons, List.map_nil,
      htrimH, htrimG, htrimRo]
    rw [if_neg (by simp [hHwin])]
    simp [volumeFinish, hHempty, hroro]
  · unfold parse_volume_spec
    rw [show trimList ('/' :: gt) = '/' :: gt from htrimG]
    simp only [List.isEmpty_cons, Bool.false_eq_true, if_false, s3, List.map_cons,
      List.map_nil, htrimG]
    simp [volumeFinish]
  · unfold parse_volume_spec
    rw [t4]
    simp only [hEmptyApp, Bool.false_eq_true, if_false, s4, List.map_cons, List.map_nil,
      htrimG, htrimRo]
    rw [if_pos (by decide)]
    simp [volumeFinish, show eqIgnoreAsciiCase roStr roStr = true from by decide]
  · show parse_volume_spec ([d] ++ ':' :: (p ++ ':' :: ('/' :: gt))) = _
    unfold parse_volume_spec
    rw [t5]
    simp only [hEmptyApp, Bool.false_eq_true, if_false, s5, List.map_cons, List.map_nil,
      htrimD, htrimP, htrimG]
    rw [if_pos (by simpa using hwinD)]
    simp [volumeFinish]
  · show parse_volume_spec ([d] ++ ':' :: (p ++ ':' :: (('/' :: gt) ++ ':' :: roStr))) = _
    unfold parse_volume_spec
    rw [t6]
    simp only [hEmptyApp, Bool.false_eq_true, if_false, s6, List.map_cons, List.map_nil,
      htrimD, htrimP, htrimG, htrimRo]
    rw [if_pos (by simpa using hwinD)]
    simp [volumeFinish, hroro]
  · unfold parse_volume_spec
    rw [t7]
    simp only [List.isEmpty_cons, Bool.false_eq_true, if_false]
    rw [show splitChar ':' (':' :: ('/' :: gt)) = [[], '/' :: gt] from by
      rw [splitChar, if_pos rfl, splitChar_no_sep ':' _ hG1]]
    simp only [List.map_cons, List.map_nil, htrimNil, htrimG]
    rw [if_neg hro2]
    simp [volumeFinish]
  · unfold parse_volume_spec
    rw [t8]
    simp only [hEmptyApp, Bool.false_eq_true, if_false, s8, List.map_cons, List.map_nil,
      htrimH, htrimNil]
    rw [if_neg (by decide)]
    simp [volumeFinish, hHempty]

theorem volume_spec_grammar_witness :
    (("/data".toList ≠ [] ∧ ':' ∉ "/data".toList ∧ noEdgeWs "/data".toList = true ∧
        is_windows_drive "/data".toList = false) ∧
      (':' ∉ "/app".toList ∧ noEdgeWs "/app".toList = true ∧
        "/app".toList.head? = some '/') ∧
      ("\\data".toList ≠ [] ∧ ':' ∉ "\\data".toList ∧ noEdgeWs "\\data".toList = true) ∧
      ('C'.isAlpha = true ∧ 'C'.isWhitespace = false ∧ 'C' ≠ ':')) ∧
    parse_volume_spec ("/data".toList ++ ':' :: "/app".toList) =
      .ok ⟨some "/data".toList, "/app".toList, false⟩ :=
  ⟨⟨⟨by decide, by decide, by decide, by decide⟩,
    ⟨by decide, by decide, by decide⟩,
    ⟨by decide, by decide, by decide⟩,
    ⟨by decide, by decide, by decide⟩⟩,
    (volume_spec_grammar "/data".toList "/app".toList "\\data".toList 'C'
      (by decide) (by decide) (by decide) (by decide) (by decide) (by decide) (by decide)
      (by decide) (by decide) (by decide) (by decide) (by decide) (by decide)).1⟩

end Boxlite
